import Mathlib

/-!
# libhid report-descriptor front end (`src/hid_parsing.c`)

A shallow embedding of the functions of `hid_parsing.c`:
`hid_prepare_parse_path`, `hid_init_parser`, `hid_prepare_parser`,
`hid_reset_parser`, `hid_find_object`, `hid_extract_value`,
`hid_get_report_size` and `hid_format_path`.

Conventions.
* `unsigned int` is a `Nat` below `2 ^ 32`; arithmetic that can wrap carries an
  explicit `% 2 ^ 32`.  `int` is an `Int` in `[-2 ^ 31, 2 ^ 31)`.
* A `char` buffer is a `Mem`: a block of `size` bytes, the byte found at every
  offset from the pointer, and the list of offsets the function has stored to.
* A pointer argument that may be `NULL` is an `Option`.
* A call that stores outside a block or dereferences `NULL` has no defined
  result: `none`.
* The logging macros (`TRACE_PRINT`, `NOTICE_PRINT`, `WARNING_PRINT`,
  `ERROR_PRINT`, `ASSERT`) only print; they are left out.
* The three functions whose C name ends in `parser` carry the suffix `_fn`.
-/

namespace LibHid

/-! ## Return codes -/

/-- The members of the `hid_return` enumeration that `hid_parsing.c` returns. -/
inductive hid_return
  | HID_RET_SUCCESS
  | HID_RET_INVALID_PARAMETER
  | HID_RET_DEVICE_NOT_OPENED
  | HID_RET_FAIL_ALLOC
  | HID_RET_NOT_FOUND
  | HID_RET_OUT_OF_SPACE
  deriving DecidableEq, Repr

open hid_return

/-! ## Character buffers -/

/-- A `char*` destination: a block of `size` bytes; `cell k` is the byte at
`buffer[k]`, `written` the offsets stored to so far, oldest first. -/
structure Mem where
  size : Nat
  cell : Nat → Nat
  written : List Nat

/-- The block after the byte `c` has been put at offset `k`. -/
def Mem.put (m : Mem) (k c : Nat) : Mem :=
  { m with
    cell := fun j => if j = k then c else m.cell j
    written := m.written ++ [k] }

/-- The assignment `buffer[k] = c`.  A store at an offset outside the block has
no defined result (`none`). -/
def Mem.store (m : Mem) (k c : Nat) : Option Mem :=
  if k < m.size then some (m.put k c) else none

/-- Consecutive stores of the bytes `cs` starting at offset `k`. -/
def Mem.storeList (m : Mem) (k : Nat) : List Nat → Option Mem
  | [] => some m
  | c :: cs => (m.store k c).bind fun m1 => m1.storeList (k + 1) cs

/-- The block after the bytes `cs` have been put at the offsets from `k` on. -/
def Mem.putList (m : Mem) (k : Nat) : List Nat → Mem
  | [] => m
  | c :: cs => (m.put k c).putList (k + 1) cs

/-! ## `printf` conversion `"0x%08x."` -/

/-- The character printed by `%x` for one hexadecimal digit (lower case). -/
def hexDigit (d : Nat) : Nat :=
  if d < 10 then 48 + d else 87 + d

/-- The eight characters of `%08x` for a 32-bit unsigned value. -/
def hex8 (v : Nat) : List Nat :=
  [hexDigit (v / 16 ^ 7 % 16), hexDigit (v / 16 ^ 6 % 16), hexDigit (v / 16 ^ 5 % 16),
   hexDigit (v / 16 ^ 4 % 16), hexDigit (v / 16 ^ 3 % 16), hexDigit (v / 16 ^ 2 % 16),
   hexDigit (v / 16 % 16), hexDigit (v % 16)]

/-- The full output of the format `"0x%08x."` applied to the `int` `p`; `%x`
reads its argument as `unsigned int`, that is modulo `2 ^ 32`. -/
def fmt_token (p : Int) : List Nat :=
  [48, 120] ++ hex8 (p % 2 ^ 32).toNat ++ [46]

/-- C99 `snprintf(s, n, ...)` where the complete output would be `out`: at most
`n - 1` characters are stored and a terminating NUL always follows them. -/
def snprintf_c99 (m : Mem) (off n : Nat) (out : List Nat) : Option Mem :=
  if n = 0 then some m else m.storeList off (out.take (n - 1) ++ [0])

/-- The Microsoft `_snprintf(s, n, ...)` where the complete output would be
`out`: a terminating NUL is stored only when the output is shorter than `n`;
otherwise the first `n` characters are stored and nothing else. -/
def snprintf_msvc (m : Mem) (off n : Nat) (out : List Nat) : Option Mem :=
  if out.length < n then m.storeList off (out ++ [0]) else m.storeList off (out.take n)

/-- The name `snprintf` as `hid_parsing.c` sees it:
`#if WIN32  #define snprintf _snprintf  #endif`. -/
def snprintf (WIN32 : Bool) (m : Mem) (off n : Nat) (out : List Nat) : Option Mem :=
  if WIN32 then snprintf_msvc m off n out else snprintf_c99 m off n out

/-! ## `hid_format_path` -/

/-- The constant `byte const ITEMSIZE = strlen("0xdeadbeef") + 1;`. -/
def ITEMSIZE : Nat := 10 + 1

/-- The `for (; i < depth; ++i)` loop of `hid_format_path`, with `n = depth - i`
iterations left.  `Except.error m` is the early `return HID_RET_OUT_OF_SPACE`
with the buffer as it stands; `Except.ok (i, m)` is the normal loop exit; `none`
is a store outside the block.  `length` never wraps: it is decremented only
after `length >= ITEMSIZE`. -/
def hid_format_path_loop (WIN32 : Bool) (path : Nat → Int) :
    Nat → Nat → Nat → Mem → Option (Except Mem (Nat × Mem))
  | 0, i, _, m => some (.ok (i, m))
  | n + 1, i, length, m =>
    if length < ITEMSIZE then some (.error m)
    else
      (snprintf WIN32 m (i * ITEMSIZE % 2 ^ 32) ITEMSIZE (fmt_token (path i))).bind fun m1 =>
        hid_format_path_loop WIN32 path n (i + 1) (length - ITEMSIZE) m1

/-- The function `hid_return hid_format_path(char* const buffer, unsigned int length,
int const path[], unsigned int const depth)`.  The offset of the final store is
`i * ITEMSIZE - 1` in `unsigned int` arithmetic.  The result is `none` when a
store falls outside the block `buffer` points to. -/
def hid_format_path (WIN32 : Bool) (buffer : Option Mem) (length : Nat)
    (path : Nat → Int) (depth : Nat) : Option (hid_return × Option Mem) :=
  match buffer with
  | none => some (HID_RET_INVALID_PARAMETER, none)
  | some m =>
    match hid_format_path_loop WIN32 path depth 0 length m with
    | none => none
    | some (.error m1) => some (HID_RET_OUT_OF_SPACE, some m1)
    | some (.ok (i, m1)) =>
      (m1.store ((i * ITEMSIZE + 2 ^ 32 - 1) % 2 ^ 32) 0).map fun m2 =>
        (HID_RET_SUCCESS, some m2)

/-- The eleven bytes one call of `snprintf` leaves for the element `p`. -/
def stored_token (WIN32 : Bool) (p : Int) : List Nat :=
  if WIN32 then fmt_token p else [48, 120] ++ hex8 (p % 2 ^ 32).toNat ++ [0]

/-- The block after the loop body of `hid_format_path` has run `k` times from
index `i` on inside the block: the `k` tokens `path[i] .. path[i + k - 1]` have
been printed. -/
def writeTokens (WIN32 : Bool) (path : Nat → Int) : Nat → Nat → Mem → Mem
  | 0, _, m => m
  | k + 1, i, m =>
    writeTokens WIN32 path k (i + 1)
      (m.putList (i * ITEMSIZE % 2 ^ 32) (stored_token WIN32 (path i)))

/-! ## Reading the formatted text back -/

/-- The buffer read as a C string from offset `k`: the bytes before the first
NUL, looking at no more than `fuel` bytes; `none` when no NUL is among them. -/
def readCStr (cell : Nat → Nat) : Nat → Nat → Option (List Nat)
  | 0, _ => none
  | fuel + 1, k =>
    if cell k = 0 then some [] else (readCStr cell fuel (k + 1)).map (cell k :: ·)

/-- The text `0xXXXXXXXX.0xXXXXXXXX. ... .0xXXXXXXXX` of the elements
`path[i] .. path[i + k - 1]`: one token each, a dot between two tokens. -/
def pathText (path : Nat → Int) : Nat → Nat → List Nat
  | 0, _ => []
  | 1, i => [48, 120] ++ hex8 (path i % 2 ^ 32).toNat
  | k + 2, i =>
    [48, 120] ++ hex8 (path i % 2 ^ 32).toNat ++ [46] ++ pathText path (k + 1) (i + 1)

/-- Splitting a text at every dot (byte 46); `cur` is the piece being read. -/
def splitDots : List Nat → List Nat → List (List Nat)
  | cur, [] => [cur]
  | cur, c :: cs => if c = 46 then cur :: splitDots [] cs else splitDots (cur ++ [c]) cs

/-- The value of one hexadecimal digit character. -/
def hexVal (c : Nat) : Option Nat :=
  if 48 ≤ c ∧ c ≤ 57 then some (c - 48)
  else if 97 ≤ c ∧ c ≤ 102 then some (c - 87)
  else none

/-- The number written by a list of hexadecimal digits, most significant first. -/
def hexNumber : Nat → List Nat → Option Nat
  | acc, [] => some acc
  | acc, c :: cs => (hexVal c).bind fun d => hexNumber (16 * acc + d) cs

/-- Reading one piece as `0x` followed by exactly eight hexadecimal digits. -/
def readToken : List Nat → Option Nat
  | 48 :: 120 :: ds => if ds.length = 8 then hexNumber 0 ds else none
  | _ => none

/-- Reading every piece of a list of pieces. -/
def readTokens : List (List Nat) → Option (List Nat)
  | [] => some []
  | t :: ts => (readToken t).bind fun v => (readTokens ts).map (v :: ·)

/-- Reading a formatted path back: the empty text is the empty path, any other
text is split at its dots and every piece is read as a token. -/
def readPath (s : List Nat) : Option (List Nat) :=
  if s = [] then some [] else readTokens (splitDots [] s)

/-- The elements `path[i] .. path[i + k - 1]` as unsigned 32-bit values. -/
def pathValues (path : Nat → Int) : Nat → Nat → List Nat
  | 0, _ => []
  | k + 1, i => (path i % 2 ^ 32).toNat :: pathValues path k (i + 1)

/-! ## The session -/

/-- Modelled from the spec: `HIDNode`, one element of a usage path, whose
declaration (`hidtypes.h`) is not part of these sources; the spec gives
"UsagePathNode: {usagePage: 16-bit unsigned, usage: 16-bit unsigned}".  The
fields hold values below `2 ^ 16`; a store converts modulo `2 ^ 16`. -/
structure HIDNode where
  UPage : Nat
  Usage : Nat
  deriving DecidableEq, Repr

/-- Modelled from the spec: `HIDPath`, whose declaration is not part of these
sources; `Node` is the fixed array of path nodes (its length is the node
capacity) and `Size` the depth of the path stored in it. -/
structure HIDPath where
  Size : Nat
  Node : List HIDNode
  deriving DecidableEq, Repr

/-- Modelled from the spec: `HIDData`, whose declaration is not part of these
sources; `Value` is the last extracted value, `Path` the search path, and
`attrs` stands for the remaining attributes of the matched item. -/
structure HIDData (A : Type) where
  Value : Int
  Path : HIDPath
  attrs : A

/-- Modelled from the spec: `HIDInterface`, whose declaration (`hid.h`) is not
part of these sources; `hid_parser_ptr` (the member `hid_parser`) and `hid_data`
are the two pointers that `hid_parsing.c` uses (`none` is `NULL`), `dev_handle`
stands for the device handle that makes a session opened.  `P` is the type of
`HIDParser`. -/
structure HIDInterface (P A : Type) where
  dev_handle : Option Nat
  hid_parser_ptr : Option P
  hid_data : Option (HIDData A)

/-- The functions that `hid_parsing.c` calls and does not define.
* `hid_is_opened(hidif)`;
* `ResetParser(parser)`;
* `HIDParse(parser, data)`: its `int` result, the parser and the data after it;
* `FindObject(parser, data, size)`: likewise;
* `GetValue(buffer, data)`: the data after it, `buffer` being the report bytes;
* `GetReportOffset(parser, reportID, reportType)`: the returned pointer
  (`none` is `NULL`, `some v` points to a cell holding `v`) and the parser
  after the call. -/
structure Extern (P A : Type) where
  hid_is_opened : HIDInterface P A → Bool
  ResetParser : P → P
  HIDParse : P → HIDData A → Int × P × HIDData A
  FindObject : P → HIDData A → Nat → Int × P × HIDData A
  GetValue : List Nat → HIDData A → HIDData A
  GetReportOffset : P → Nat → Nat → Option Nat × P

/-- The two assignments of the loop body of `hid_prepare_parse_path` for the
element `p = path[i]`: `UPage = p >> 16` and `Usage = p & 0x0000ffff`, each
converted to the 16-bit unsigned field.  `>>` on a negative `int` is the
arithmetic shift. -/
def decodeNode (p : Int) : HIDNode :=
  { UPage := ((p >>> (16 : Nat)) % 2 ^ 16).toNat
    Usage := (Int.land p 0x0000ffff % 2 ^ 16).toNat }

/-- The loop of `hid_prepare_parse_path` with `n = depth - i` iterations left.
A store past the end of the node array has no defined result (`none`). -/
def hid_prepare_parse_path_loop (path : Nat → Int) :
    Nat → Nat → List HIDNode → Option (List HIDNode)
  | 0, _, nodes => some nodes
  | n + 1, i, nodes =>
    if i < nodes.length then
      hid_prepare_parse_path_loop path n (i + 1) (nodes.set i (decodeNode (path i)))
    else none

/-- The function `static void hid_prepare_parse_path(HIDInterface* const hidif,
int const path[], unsigned int const depth)`, acting on `*hidif->hid_data`. -/
def hid_prepare_parse_path {A : Type} (data : HIDData A) (path : Nat → Int) (depth : Nat) :
    Option (HIDData A) :=
  match hid_prepare_parse_path_loop path depth 0 data.Path.Node with
  | none => none
  | some nodes => some { data with Path := { Size := depth, Node := nodes } }

/-- The function `hid_return hid_init_parser(HIDInterface* const hidif)`.  `malloc_data` and
`malloc_parser_res` are what the two calls of `malloc` return. -/
def hid_init_parser_fn {P A : Type} (env : Extern P A) (hidif : HIDInterface P A)
    (malloc_data : Option (HIDData A)) (malloc_parser_res : Option P) :
    hid_return × HIDInterface P A :=
  if !env.hid_is_opened hidif then (HID_RET_DEVICE_NOT_OPENED, hidif)
  else
    let hidif1 := { hidif with hid_data := malloc_data }
    if malloc_data.isNone then (HID_RET_FAIL_ALLOC, hidif1)
    else
      let hidif2 := { hidif1 with hid_parser_ptr := malloc_parser_res }
      if malloc_parser_res.isNone then (HID_RET_FAIL_ALLOC, hidif2)
      else (HID_RET_SUCCESS, hidif2)

/-- The function `void hid_reset_parser(HIDInterface* const hidif)`; `none` when
`ResetParser` is handed a `NULL` parser. -/
def hid_reset_parser_fn {P A : Type} (env : Extern P A) (hidif : HIDInterface P A) :
    Option (HIDInterface P A) :=
  if !env.hid_is_opened hidif then some hidif
  else
    match hidif.hid_parser_ptr with
    | none => none
    | some p => some { hidif with hid_parser_ptr := some (env.ResetParser p) }

/-- The function `hid_return hid_prepare_parser(HIDInterface* const hidif)`.  The dump of the
raw descriptor only prints.  The result of `HIDParse` is the first component of
`r`; the function does not look at it. -/
def hid_prepare_parser_fn {P A : Type} (env : Extern P A) (hidif : HIDInterface P A) :
    Option (hid_return × HIDInterface P A) :=
  if !env.hid_is_opened hidif then some (HID_RET_DEVICE_NOT_OPENED, hidif)
  else
    match hid_reset_parser_fn env hidif with
    | none => none
    | some hidif1 =>
      match hidif1.hid_parser_ptr, hidif1.hid_data with
      | some p, some d =>
        let r := env.HIDParse p d
        some (HID_RET_SUCCESS, { hidif1 with hid_parser_ptr := some r.2.1, hid_data := some r.2.2 })
      | _, _ => none

/-- The function `hid_return hid_find_object(HIDInterface* const hidif, int const path[],
unsigned int const depth, unsigned int const size)`.  `malloc_buffer` is what
`malloc(depth * 11)` returns for the scratch buffer of the warning message: the
contents of a fresh block of `depth * 11` bytes, or `none` for `NULL`.  The
result carries, after the return code and the session, the scratch block as the
call leaves it and whether `free(buffer)` was reached.  The length handed to
`hid_format_path` is `depth * 11` as an `unsigned int`; its return code is not
looked at, but the call has no result when `hid_format_path` has none. -/
def hid_find_object {P A : Type} (WIN32 : Bool) (env : Extern P A) (hidif : HIDInterface P A)
    (path : Nat → Int) (depth size : Nat) (malloc_buffer : Option (Nat → Nat)) :
    Option (hid_return × HIDInterface P A × Option Mem × Bool) :=
  let buffer : Option Mem :=
    malloc_buffer.map fun cell => { size := depth * (10 + 1), cell := cell, written := [] }
  if !env.hid_is_opened hidif then some (HID_RET_DEVICE_NOT_OPENED, hidif, buffer, false)
  else
    match hidif.hid_parser_ptr, hidif.hid_data with
    | some p, some d =>
      match hid_prepare_parse_path d path depth with
      | none => none
      | some d1 =>
        let r := env.FindObject p d1 size
        let hidif1 := { hidif with hid_parser_ptr := some r.2.1, hid_data := some r.2.2 }
        if r.1 = 1 then some (HID_RET_SUCCESS, hidif1, buffer, true)
        else
          match hid_format_path WIN32 buffer (depth * (10 + 1) % 2 ^ 32) path depth with
          | none => none
          | some f => some (HID_RET_NOT_FOUND, hidif1, f.2, true)
    | _, _ => none

/-- The function `hid_return hid_extract_value(HIDInterface* const hidif,
unsigned char *const buffer, double *const value)`.  `value` is the content of
the destination (`none`: `NULL`), returned as the third component; the `double`
stored is the integer `hid_data->Value`. -/
def hid_extract_value {P A : Type} (env : Extern P A) (hidif : HIDInterface P A)
    (buffer : Option (List Nat)) (value : Option Int) :
    Option (hid_return × HIDInterface P A × Option Int) :=
  if !env.hid_is_opened hidif then some (HID_RET_DEVICE_NOT_OPENED, hidif, value)
  else
    match buffer with
    | none => some (HID_RET_INVALID_PARAMETER, hidif, value)
    | some raw =>
      match value with
      | none => some (HID_RET_INVALID_PARAMETER, hidif, value)
      | some _ =>
        match hidif.hid_data with
        | none => none
        | some d =>
          let d1 := env.GetValue raw d
          some (HID_RET_SUCCESS, { hidif with hid_data := some d1 }, some d1.Value)

/-- The function `hid_return hid_get_report_size(HIDInterface* const hidif,
unsigned int const reportID, unsigned int const reportType, unsigned int *size)`.
`size` is the content of the destination (`none`: `NULL`), returned as the third
component.  Dereferencing a `NULL` result of `GetReportOffset` has no defined
result (`none`). -/
def hid_get_report_size {P A : Type} (env : Extern P A) (hidif : HIDInterface P A)
    (reportID reportType : Nat) (size : Option Nat) :
    Option (hid_return × HIDInterface P A × Option Nat) :=
  if !env.hid_is_opened hidif then some (HID_RET_DEVICE_NOT_OPENED, hidif, size)
  else
    match size with
    | none => some (HID_RET_INVALID_PARAMETER, hidif, size)
    | some _ =>
      match hidif.hid_parser_ptr with
      | none => none
      | some p =>
        match env.GetReportOffset p reportID reportType with
        | (none, _) => none
        | (some v, p1) => some (HID_RET_SUCCESS, { hidif with hid_parser_ptr := some p1 }, some v)

/-! ## The path encoding of the external interface -/

/-- A block of 22 bytes whose every byte is `z` (122): stale contents without
any NUL. -/
def staleBuffer : Mem := ⟨22, fun _ => 122, []⟩

/-- A block of `2 ^ 32` bytes whose every byte is `z` (122). -/
def hugeStaleBuffer : Mem := ⟨2 ^ 32, fun _ => 122, []⟩

/-- The path `[0x00010002, 0x00010030]` of the joystick scenario. -/
def scenarioPath : Nat → Int := fun i => [0x00010002, 0x00010030].getD i 0

/-- A small parser state for the examples: the raw descriptor and the report
offset table as a list of `(reportID, reportType, bits)`. -/
structure ExampleParser where
  ReportDesc : List Nat
  OffsetTab : List (Nat × Nat × Nat)
  deriving DecidableEq, Repr

/-- Whether a descriptor is a sequence of complete short items: the two low
bits of a prefix byte give the payload length 0, 1, 2 or 4. -/
def itemsComplete : Nat → List Nat → Bool
  | 0, _ => true
  | _ + 1, [] => true
  | fuel + 1, b :: rest =>
    if rest.length < (if b % 4 = 3 then 4 else b % 4) then false
    else itemsComplete fuel (rest.drop (if b % 4 = 3 then 4 else b % 4))

/-- The entry of an offset table for a key, if the table records the key. -/
def offsetEntry (tab : List (Nat × Nat × Nat)) (reportID reportType : Nat) : Option Nat :=
  (tab.find? fun e => e.1 = reportID ∧ e.2.1 = reportType).map fun e => e.2.2

/-- Example collaborators.  A session is opened when it has a device handle;
`HIDParse` returns 0 on a descriptor with a truncated item and 1 otherwise;
`FindObject` finds nothing; `GetValue` takes the first report byte;
`GetReportOffset` points to the entry of the key and, for a key the table does
not record, to a fresh entry holding 0 that it appends. -/
def exampleEnv : Extern ExampleParser Unit where
  hid_is_opened := fun h => h.dev_handle.isSome
  ResetParser := fun p => p
  HIDParse := fun p d =>
    (if itemsComplete p.ReportDesc.length p.ReportDesc then 1 else 0, p, d)
  FindObject := fun p d _ => (0, p, d)
  GetValue := fun raw d => { d with Value := raw.getD 0 0 }
  GetReportOffset := fun p reportID reportType =>
    match offsetEntry p.OffsetTab reportID reportType with
    | some v => (some v, p)
    | none => (some 0, { p with OffsetTab := p.OffsetTab ++ [(reportID, reportType, 0)] })

/-- Example data block: value 7, an empty path over ten nodes. -/
def exampleData : HIDData Unit :=
  { Value := 7, Path := { Size := 0, Node := List.replicate 10 ⟨0, 0⟩ }, attrs := () }

/-- An opened session whose descriptor ends in a truncated item (`0x05` declares
one payload byte and none follows) and whose offset table is empty. -/
def openedSession : HIDInterface ExampleParser Unit :=
  { dev_handle := some 1
    hid_parser_ptr := some { ReportDesc := [0x05], OffsetTab := [] }
    hid_data := some exampleData }

/-- The same session without a device handle: not opened. -/
def closedSession : HIDInterface ExampleParser Unit :=
  { openedSession with dev_handle := none }

/-- The partial state asked of the buffer after `HID_RET_OUT_OF_SPACE`: read as
a C string it is empty, or it is the text of the `k` tokens written in full. -/
def partialStateOk (cell : Nat → Nat) (path : Nat → Int) (k : Nat) : Prop :=
  ∃ fuel, readCStr cell fuel 0 = some [] ∨ readCStr cell fuel 0 = some (pathText path k 0)

/-! ## Lemmas on buffers and on the formatter loop -/

theorem putList_size (cs : List Nat) : ∀ (m : Mem) (k : Nat),
    (m.putList k cs).size = m.size := by
  induction cs with
  | nil => intro m k; rfl
  | cons c cs ih => intro m k; simp only [Mem.putList, ih]; rfl

theorem putList_written (cs : List Nat) : ∀ (m : Mem) (k : Nat),
    (m.putList k cs).written = m.written ++ List.range' k cs.length := by
  induction cs with
  | nil => intro m k; simp [Mem.putList]
  | cons c cs ih =>
    intro m k
    simp [Mem.putList, ih, Mem.put, List.range'_succ]

theorem putList_cell_outside (cs : List Nat) : ∀ (m : Mem) (k j : Nat),
    (j < k ∨ k + cs.length ≤ j) → (m.putList k cs).cell j = m.cell j := by
  induction cs with
  | nil => intro m k j _; rfl
  | cons c cs ih =>
    intro m k j h
    simp only [Mem.putList, List.length_cons] at h ⊢
    rw [ih _ _ _ (by omega)]
    simp only [Mem.put]
    rw [if_neg (by omega)]

theorem putList_cell_inside (cs : List Nat) : ∀ (m : Mem) (k j : Nat),
    j < cs.length → (m.putList k cs).cell (k + j) = cs.getD j 0 := by
  induction cs with
  | nil => intro m k j h; simp at h
  | cons c cs ih =>
    intro m k j h
    cases j with
    | zero =>
      simp only [Mem.putList, Nat.add_zero, List.getD_cons_zero]
      rw [putList_cell_outside _ _ _ _ (by omega)]
      simp [Mem.put]
    | succ j =>
      simp only [Mem.putList, List.getD_cons_succ]
      have := ih (m.put k c) (k + 1) j (by simpa using h)
      rw [← this]; congr 1; omega

theorem storeList_inside (cs : List Nat) : ∀ (m : Mem) (k : Nat),
    k + cs.length ≤ m.size → m.storeList k cs = some (m.putList k cs) := by
  induction cs with
  | nil => intro m k _; rfl
  | cons c cs ih =>
    intro m k h
    simp only [List.length_cons] at h
    simp only [Mem.storeList, Mem.store, Mem.putList]
    rw [if_pos (by omega), Option.some_bind]
    exact ih (m.put k c) (k + 1) (by show k + 1 + cs.length ≤ m.size; omega)

theorem stored_token_length (W : Bool) (p : Int) : (stored_token W p).length = 11 := by
  cases W <;> simp [stored_token, fmt_token, hex8]

theorem snprintf_token (W : Bool) (m : Mem) (off : Nat) (p : Int) (h : off + 11 ≤ m.size) :
    snprintf W m off ITEMSIZE (fmt_token p) = some (m.putList off (stored_token W p)) := by
  rw [← storeList_inside _ m off (by rw [stored_token_length]; exact h)]
  cases W <;>
    simp [snprintf, snprintf_msvc, snprintf_c99, stored_token, fmt_token, hex8, ITEMSIZE]

theorem writeTokens_size (W : Bool) (path : Nat → Int) : ∀ (k i : Nat) (m : Mem),
    (writeTokens W path k i m).size = m.size := by
  intro k
  induction k with
  | zero => intro i m; rfl
  | succ k ih => intro i m; simp only [writeTokens, ih, putList_size]

theorem token_offset (i : Nat) (h : 11 * (i + 1) ≤ 2 ^ 32) : i * ITEMSIZE % 2 ^ 32 = 11 * i := by
  simp only [ITEMSIZE]; rw [Nat.mod_eq_of_lt (by omega)]; omega

theorem loop_ok (W : Bool) (path : Nat → Int) : ∀ (n i length : Nat) (m : Mem),
    11 * n ≤ length → 11 * (i + n) ≤ m.size → 11 * (i + n) ≤ 2 ^ 32 →
    hid_format_path_loop W path n i length m
      = some (.ok (i + n, writeTokens W path n i m)) := by
  intro n
  induction n with
  | zero => intro i length m _ _ _; rfl
  | succ n ih =>
    intro i length m h hs hw
    simp only [hid_format_path_loop, writeTokens]
    rw [if_neg (by simp only [ITEMSIZE]; omega),
      snprintf_token W m _ _ (by rw [token_offset i (by omega)]; omega), Option.some_bind,
      ih _ _ _ (by simp only [ITEMSIZE]; omega) (by rw [putList_size]; omega) (by omega)]
    congr 3; omega

theorem loop_err (W : Bool) (path : Nat → Int) : ∀ (n i length : Nat) (m : Mem),
    length < 11 * n → 11 * i + length ≤ m.size → 11 * i + length < 2 ^ 32 →
    hid_format_path_loop W path n i length m
      = some (.error (writeTokens W path (length / 11) i m)) := by
  intro n
  induction n with
  | zero => intro i length m h; omega
  | succ n ih =>
    intro i length m h hs hw
    simp only [hid_format_path_loop]
    by_cases hl : length < 11
    · rw [if_pos (by simp only [ITEMSIZE]; omega)]
      have : length / 11 = 0 := by omega
      rw [this]; rfl
    · rw [if_neg (by simp only [ITEMSIZE]; omega),
        snprintf_token W m _ _ (by rw [token_offset i (by omega)]; omega), Option.some_bind,
        ih _ _ _ (by simp only [ITEMSIZE]; omega)
          (by rw [putList_size]; simp only [ITEMSIZE]; omega)
          (by simp only [ITEMSIZE]; omega)]
      have : length / 11 = (length - ITEMSIZE) / 11 + 1 := by simp only [ITEMSIZE]; omega
      rw [this]; rfl

theorem writeTokens_written (W : Bool) (path : Nat → Int) : ∀ (k i : Nat) (m : Mem),
    11 * (i + k) ≤ 2 ^ 32 →
    (writeTokens W path k i m).written = m.written ++ List.range' (11 * i) (11 * k) := by
  intro k
  induction k with
  | zero => intro i m _; simp [writeTokens]
  | succ k ih =>
    intro i m h
    simp only [writeTokens]
    rw [ih _ _ (by omega), putList_written, stored_token_length]
    have h2 : 11 * (k + 1) = 11 * k + 11 := by omega
    have h3 : 11 * (i + 1) = 11 * i + 11 := by omega
    rw [token_offset i (by omega), h2, h3, List.append_assoc, List.range'_append_1]

theorem writeTokens_cell_above (W : Bool) (path : Nat → Int) :
    ∀ (k i : Nat) (m : Mem) (j : Nat),
    11 * (i + k) ≤ 2 ^ 32 → (j < 11 * i ∨ 11 * (i + k) ≤ j) →
    (writeTokens W path k i m).cell j = m.cell j := by
  intro k
  induction k with
  | zero => intro i m j _ _; rfl
  | succ k ih =>
    intro i m j h hj
    simp only [writeTokens]
    rw [token_offset i (by omega), ih _ _ _ (by omega) (by omega)]
    rw [putList_cell_outside _ _ _ _ (by rw [stored_token_length]; omega)]

theorem writeTokens_cell_inside (W : Bool) (path : Nat → Int) :
    ∀ (k i0 : Nat) (m : Mem) (i t : Nat),
    11 * (i0 + k) ≤ 2 ^ 32 → i0 ≤ i → i < i0 + k → t < 11 →
    (writeTokens W path k i0 m).cell (11 * i + t) = (stored_token W (path i)).getD t 0 := by
  intro k
  induction k with
  | zero => intro i0 m i t _ h1 h2 _; omega
  | succ k ih =>
    intro i0 m i t h h1 h2 ht
    simp only [writeTokens]
    rw [token_offset i0 (by omega)]
    by_cases hi : i = i0
    · subst hi
      rw [writeTokens_cell_above _ _ _ _ _ _ (by omega) (by omega)]
      exact putList_cell_inside _ _ _ _ (by rw [stored_token_length]; exact ht)
    · exact ih _ _ _ _ (by omega) (by omega) (by omega) ht

theorem final_offset (depth : Nat) (h1 : 1 ≤ depth) (h2 : 11 * depth < 2 ^ 32) :
    (depth * ITEMSIZE + 2 ^ 32 - 1) % 2 ^ 32 = 11 * depth - 1 := by
  simp only [ITEMSIZE]
  have : depth * (10 + 1) + 2 ^ 32 - 1 = (11 * depth - 1) + 1 * 2 ^ 32 := by omega
  rw [this, Nat.add_mul_mod_self_right, Nat.mod_eq_of_lt (by omega)]

theorem format_path_ok (W : Bool) (m : Mem) (length : Nat) (path : Nat → Int) (depth : Nat)
    (hd : 1 ≤ depth) (h : 11 * depth ≤ length) (hl : length < 2 ^ 32) (hs : length ≤ m.size) :
    hid_format_path W (some m) length path depth =
      some (HID_RET_SUCCESS, some ((writeTokens W path depth 0 m).put (11 * depth - 1) 0)) := by
  simp only [hid_format_path,
    loop_ok W path depth 0 length m h (by omega) (by omega), Nat.zero_add,
    final_offset depth hd (by omega), Mem.store]
  rw [if_pos (by rw [writeTokens_size]; omega)]
  rfl

theorem format_path_err (W : Bool) (m : Mem) (length : Nat) (path : Nat → Int) (depth : Nat)
    (h : length < 11 * depth) (hl : length < 2 ^ 32) (hs : length ≤ m.size) :
    hid_format_path W (some m) length path depth =
      some (HID_RET_OUT_OF_SPACE, some (writeTokens W path (length / 11) 0 m)) := by
  simp only [hid_format_path, loop_err W path depth 0 length m h (by omega) (by omega)]

theorem format_path_zero (W : Bool) (m : Mem) (length : Nat) (path : Nat → Int) :
    hid_format_path W (some m) length path 0 =
      if 4294967295 < m.size then some (HID_RET_SUCCESS, some (m.put 4294967295 0))
      else none := by
  simp only [hid_format_path, hid_format_path_loop, Mem.store]
  by_cases h : 4294967295 < m.size
  · simp [h]
  · simp [h]


/-! ## The path formatter: return code, write bounds, partial state -/

/-- C2: the return code of `hid_format_path` on a block of at least `length`
bytes, `length` a 32-bit value.  With a `NULL` buffer it is
`HID_RET_INVALID_PARAMETER` whatever the other arguments.  With a buffer and
`depth >= 1` it is `HID_RET_OUT_OF_SPACE` exactly when `length < 11 * depth`
and `HID_RET_SUCCESS` otherwise; a buffer one token short,
`length = 11 * (depth - 1)`, gives `HID_RET_OUT_OF_SPACE`.  With `depth = 0`
the only store is `buffer[4294967295] = 0`: the call returns
`HID_RET_SUCCESS` when the block reaches that far and has no defined result
otherwise, in particular for every block shorter than `2 ^ 32` bytes. -/
theorem C2_format_path_return_code (W : Bool) (m : Mem) (length : Nat) (path : Nat → Int)
    (depth : Nat) (hl : length < 2 ^ 32) (hs : length ≤ m.size) :
    hid_format_path W none length path depth = some (HID_RET_INVALID_PARAMETER, none) ∧
    (1 ≤ depth →
      (hid_format_path W (some m) length path depth).map (fun r => r.1) =
        some (if length < 11 * depth then HID_RET_OUT_OF_SPACE else HID_RET_SUCCESS)) ∧
    (1 ≤ depth → length = 11 * (depth - 1) →
      (hid_format_path W (some m) length path depth).map (fun r => r.1) =
        some HID_RET_OUT_OF_SPACE) ∧
    (hid_format_path W (some m) length path 0 =
      if 4294967295 < m.size then some (HID_RET_SUCCESS, some (m.put 4294967295 0))
      else none) ∧
    (m.size ≤ 4294967295 → hid_format_path W (some m) length path 0 = none) := by
  refine ⟨rfl, ?_, ?_, format_path_zero W m length path, ?_⟩
  · intro hd
    by_cases h : length < 11 * depth
    · rw [if_pos h, format_path_err W m length path depth h hl hs]; rfl
    · rw [if_neg h, format_path_ok W m length path depth hd (by omega) hl hs]; rfl
  · intro hd he
    rw [format_path_err W m length path depth (by omega) hl hs]; rfl
  · intro h
    rw [format_path_zero, if_neg (by omega)]

/-- Witness for C2: the 22-byte stale block; depth 2 gives `HID_RET_SUCCESS`,
depth 0 has no defined result. -/
theorem C2_format_path_return_code_witness :
    (22 < 2 ^ 32 ∧ 22 ≤ staleBuffer.size) ∧
    ((hid_format_path true (some staleBuffer) 22 scenarioPath 2).map (fun r => r.1) =
        some (if 22 < 11 * 2 then HID_RET_OUT_OF_SPACE else HID_RET_SUCCESS)) ∧
    hid_format_path true (some staleBuffer) 22 scenarioPath 0 = none :=
  ⟨⟨by decide, by decide⟩,
    (C2_format_path_return_code true staleBuffer 22 scenarioPath 2 (by decide)
      (by decide)).2.1 (by decide),
    (C2_format_path_return_code true staleBuffer 22 scenarioPath 2 (by decide)
      (by decide)).2.2.2.2 (by decide)⟩

/-- C10: write bounds of `hid_format_path` for `depth >= 1`, a 32-bit `length`
and a block of at least `length` bytes.  The call returns, and the offsets it
has stored to are, in order, `0 .. 11 * depth - 1` and then `11 * depth - 1`
again (the terminator) on the `HID_RET_SUCCESS` path, which needs
`11 * depth <= length`; and `0 .. 11 * (length / 11) - 1` on the
`HID_RET_OUT_OF_SPACE` path.  Hence every offset stored to is below `length`,
on the `HID_RET_OUT_OF_SPACE` path it is below `11 * (length / 11)`, and the
terminator offset `11 * depth - 1` is stored to on the success path only. -/
theorem C10_format_path_write_bounds (W : Bool) (m : Mem) (length : Nat) (path : Nat → Int)
    (depth : Nat) (hd : 1 ≤ depth) (hl : length < 2 ^ 32) (hs : length ≤ m.size) :
    ∃ (ret : hid_return) (m1 : Mem) (ws : List Nat),
      hid_format_path W (some m) length path depth = some (ret, some m1) ∧
      m1.written = m.written ++ ws ∧
      (∀ k ∈ ws, k < length) ∧
      ((ret = HID_RET_SUCCESS ∧
          11 * depth ≤ length ∧ ws = List.range' 0 (11 * depth) ++ [11 * depth - 1]) ∨
       (ret = HID_RET_OUT_OF_SPACE ∧
          length < 11 * depth ∧ ws = List.range' 0 (11 * (length / 11)) ∧
          (∀ k ∈ ws, k < 11 * (length / 11)) ∧ 11 * depth - 1 ∉ ws)) := by
  by_cases h : length < 11 * depth
  · refine ⟨HID_RET_OUT_OF_SPACE, writeTokens W path (length / 11) 0 m,
      List.range' 0 (11 * (length / 11)),
      format_path_err W m length path depth h hl hs, ?_, ?_, Or.inr ⟨rfl, h, rfl, ?_, ?_⟩⟩
    · have := writeTokens_written W path (length / 11) 0 m (by omega)
      simpa using this
    · intro k hk
      rw [List.mem_range'_1] at hk
      omega
    · intro k hk
      rw [List.mem_range'_1] at hk
      omega
    · intro hk
      rw [List.mem_range'_1] at hk
      omega
  · have h1 : 11 * depth ≤ length := by omega
    refine ⟨HID_RET_SUCCESS, (writeTokens W path depth 0 m).put (11 * depth - 1) 0,
      List.range' 0 (11 * depth) ++ [11 * depth - 1],
      format_path_ok W m length path depth hd h1 hl hs, ?_, ?_, Or.inl ⟨rfl, h1, rfl⟩⟩
    · have := writeTokens_written W path depth 0 m (by omega)
      simp only [Mem.put, this, Nat.mul_zero, List.append_assoc]
    · intro k hk
      rw [List.mem_append, List.mem_range'_1, List.mem_singleton] at hk
      omega

/-- Witness for C10: the 22-byte stale block and the scenario path of depth 2. -/
theorem C10_format_path_write_bounds_witness :
    (1 ≤ 2 ∧ 22 < 2 ^ 32 ∧ 22 ≤ staleBuffer.size) ∧
    ∃ (ret : hid_return) (m1 : Mem) (ws : List Nat),
      hid_format_path true (some staleBuffer) 22 scenarioPath 2 = some (ret, some m1) ∧
      m1.written = staleBuffer.written ++ ws ∧
      (∀ k ∈ ws, k < 22) ∧
      ((ret = HID_RET_SUCCESS ∧
          11 * 2 ≤ 22 ∧ ws = List.range' 0 (11 * 2) ++ [11 * 2 - 1]) ∨
       (ret = HID_RET_OUT_OF_SPACE ∧
          22 < 11 * 2 ∧ ws = List.range' 0 (11 * (22 / 11)) ∧
          (∀ k ∈ ws, k < 11 * (22 / 11)) ∧ 11 * 2 - 1 ∉ ws)) :=
  ⟨⟨by decide, by decide, by decide⟩,
    C10_format_path_write_bounds true staleBuffer 22 scenarioPath 2 (by decide) (by decide)
      (by decide)⟩

theorem readCStr_stale : ∀ (fuel k : Nat), readCStr staleBuffer.cell fuel k = none := by
  intro fuel
  induction fuel with
  | zero => intro k; rfl
  | succ fuel ih =>
    intro k
    simp only [readCStr, ih, Option.map_none']
    rfl

/-- C3, counterexample: with `length = 0` and `depth = 1` (a buffer one token
short) the call returns `HID_RET_OUT_OF_SPACE` and hands the stale buffer back
untouched; read as a C string it is neither empty nor terminated. -/
theorem C3_format_path_partial_state_counterexample :
    hid_format_path true (some staleBuffer) 0 scenarioPath 1
      = some (HID_RET_OUT_OF_SPACE, some staleBuffer) ∧
    ¬ partialStateOk staleBuffer.cell scenarioPath (0 / 11) := by
  refine ⟨rfl, ?_⟩
  rintro ⟨fuel, h | h⟩ <;> simp [readCStr_stale] at h

/-- C3, amended: when `hid_format_path` returns `HID_RET_OUT_OF_SPACE`
(`length < 11 * depth`, `length` a 32-bit value, the block at least `length`
bytes) the buffer holds the `length / 11` tokens printed so far at offsets
`0 .. 11 * (length / 11) - 1`, eleven bytes per element as `snprintf` left
them; every byte from offset `11 * (length / 11)` on is what it was before the
call, no terminator being added on this path; with `length < 11` the buffer is
handed back unchanged. -/
theorem C3_format_path_partial_state (W : Bool) (m : Mem) (length : Nat) (path : Nat → Int)
    (depth : Nat) (hl : length < 2 ^ 32) (h : length < 11 * depth) (hs : length ≤ m.size) :
    hid_format_path W (some m) length path depth
      = some (HID_RET_OUT_OF_SPACE, some (writeTokens W path (length / 11) 0 m)) ∧
    (writeTokens W path (length / 11) 0 m).written
      = m.written ++ List.range' 0 (11 * (length / 11)) ∧
    (∀ i t, i < length / 11 → t < 11 →
      (writeTokens W path (length / 11) 0 m).cell (11 * i + t)
        = (stored_token W (path i)).getD t 0) ∧
    (∀ j, 11 * (length / 11) ≤ j →
      (writeTokens W path (length / 11) 0 m).cell j = m.cell j) ∧
    (length < 11 → writeTokens W path (length / 11) 0 m = m) := by
  refine ⟨format_path_err W m length path depth h hl hs, ?_, ?_, ?_, ?_⟩
  · have := writeTokens_written W path (length / 11) 0 m (by omega)
    simpa using this
  · intro i t hi ht
    exact writeTokens_cell_inside W path _ 0 m i t (by omega) (by omega) (by omega) ht
  · intro j hj
    exact writeTokens_cell_above W path _ 0 m j (by omega) (Or.inr (by omega))
  · intro h11
    have : length / 11 = 0 := by omega
    rw [this]; rfl

/-- Witness for C3 (amended): 11 bytes of the stale block and a path of depth 2. -/
theorem C3_format_path_partial_state_witness :
    (11 < 2 ^ 32 ∧ 11 < 11 * 2 ∧ 11 ≤ staleBuffer.size) ∧
    (hid_format_path true (some staleBuffer) 11 scenarioPath 2
      = some (HID_RET_OUT_OF_SPACE,
          some (writeTokens true scenarioPath (11 / 11) 0 staleBuffer)) ∧
    (writeTokens true scenarioPath (11 / 11) 0 staleBuffer).written
      = staleBuffer.written ++ List.range' 0 (11 * (11 / 11)) ∧
    (∀ i t, i < 11 / 11 → t < 11 →
      (writeTokens true scenarioPath (11 / 11) 0 staleBuffer).cell (11 * i + t)
        = (stored_token true (scenarioPath i)).getD t 0) ∧
    (∀ j, 11 * (11 / 11) ≤ j →
      (writeTokens true scenarioPath (11 / 11) 0 staleBuffer).cell j = staleBuffer.cell j) ∧
    (11 < 11 → writeTokens true scenarioPath (11 / 11) 0 staleBuffer = staleBuffer)) :=
  ⟨⟨by decide, by decide, by decide⟩,
    C3_format_path_partial_state true staleBuffer 11 scenarioPath 2 (by decide) (by decide)
      (by decide)⟩

/-- C1, at depth 0: for every buffer, `length` and path the only store of the
call is `buffer[4294967295] = 0` (the offset `0 * ITEMSIZE - 1` in
`unsigned int` arithmetic).  Where the block reaches that far the call returns
`HID_RET_SUCCESS` and `buffer[0]` keeps its value, so the buffer does not hold
the empty string unless it did before (the stale block of `2 ^ 32` bytes still
reads as unterminated); where it does not, as for the stale block of 22 bytes,
the call has no defined result. -/
theorem C1_format_path_depth_zero (W : Bool) (m : Mem) (length : Nat) (path : Nat → Int) :
    (hid_format_path W (some m) length path 0
      = if 4294967295 < m.size then some (HID_RET_SUCCESS, some (m.put 4294967295 0))
        else none) ∧
    (m.put 4294967295 0).cell 0 = m.cell 0 ∧
    (m.put 4294967295 0).written = m.written ++ [4294967295] ∧
    (hid_format_path W (some hugeStaleBuffer) length path 0).map
        (fun r => (r.1, r.2.map fun m1 => readCStr m1.cell 64 0))
      = some (HID_RET_SUCCESS, some none) ∧
    hid_format_path W (some staleBuffer) length path 0 = none := by
  exact ⟨format_path_zero W m length path, rfl, rfl, rfl, rfl⟩


/-! ## The session functions -/

/-- C8: on a session that is not opened each of `hid_init_parser`,
`hid_prepare_parser`, `hid_find_object`, `hid_extract_value` and
`hid_get_report_size` returns `HID_RET_DEVICE_NOT_OPENED` for all other
arguments, absent pointers included, and hands back the session and the
destination as they were.  (`hid_find_object` has by then allocated its scratch
block, which it neither writes to nor frees.) -/
theorem C8_not_opened_checked_first {P A : Type} (env : Extern P A) (hidif : HIDInterface P A)
    (malloc_data : Option (HIDData A)) (malloc_parser_res : Option P)
    (path : Nat → Int) (depth size : Nat) (buffer : Option (List Nat)) (value : Option Int)
    (reportID reportType : Nat) (dest : Option Nat) (W : Bool)
    (malloc_buffer : Option (Nat → Nat))
    (hno : env.hid_is_opened hidif = false) :
    hid_init_parser_fn env hidif malloc_data malloc_parser_res
      = (HID_RET_DEVICE_NOT_OPENED, hidif) ∧
    hid_prepare_parser_fn env hidif = some (HID_RET_DEVICE_NOT_OPENED, hidif) ∧
    hid_find_object W env hidif path depth size malloc_buffer
      = some (HID_RET_DEVICE_NOT_OPENED, hidif,
          malloc_buffer.map (fun cell => { size := depth * (10 + 1), cell := cell, written := [] }),
          false) ∧
    hid_extract_value env hidif buffer value
      = some (HID_RET_DEVICE_NOT_OPENED, hidif, value) ∧
    hid_get_report_size env hidif reportID reportType dest
      = some (HID_RET_DEVICE_NOT_OPENED, hidif, dest) := by
  simp [hid_init_parser_fn, hid_prepare_parser_fn, hid_find_object, hid_extract_value,
    hid_get_report_size, hno]

/-- Witness for C8: the closed example session, with absent and with present
pointers. -/
theorem C8_not_opened_checked_first_witness :
    exampleEnv.hid_is_opened closedSession = false ∧
    (hid_init_parser_fn exampleEnv closedSession (some exampleData) none
      = (HID_RET_DEVICE_NOT_OPENED, closedSession) ∧
    hid_prepare_parser_fn exampleEnv closedSession
      = some (HID_RET_DEVICE_NOT_OPENED, closedSession) ∧
    hid_find_object true exampleEnv closedSession scenarioPath 2 8 (some staleBuffer.cell)
      = some (HID_RET_DEVICE_NOT_OPENED, closedSession, some staleBuffer, false) ∧
    hid_extract_value exampleEnv closedSession none (some 3)
      = some (HID_RET_DEVICE_NOT_OPENED, closedSession, some 3) ∧
    hid_get_report_size exampleEnv closedSession 1 1 none
      = some (HID_RET_DEVICE_NOT_OPENED, closedSession, none)) :=
  ⟨rfl, C8_not_opened_checked_first exampleEnv closedSession (some exampleData) none
    scenarioPath 2 8 none (some 3) 1 1 none true (some staleBuffer.cell) rfl⟩

/-- C9: on an opened session `hid_extract_value` returns
`HID_RET_INVALID_PARAMETER` when the raw buffer or the destination is absent,
and then hands back the session (its cached value included) and the destination
as they were, `GetValue` not being run; when both are present every result it
returns is `HID_RET_SUCCESS`, never `HID_RET_INVALID_PARAMETER`, and it does
return one whenever the session data is allocated. -/
theorem C9_extract_value_invalid_parameter {P A : Type} (env : Extern P A)
    (hidif : HIDInterface P A) (buffer : Option (List Nat)) (value : Option Int)
    (ho : env.hid_is_opened hidif = true) :
    ((buffer = none ∨ value = none) →
      hid_extract_value env hidif buffer value
        = some (HID_RET_INVALID_PARAMETER, hidif, value)) ∧
    ((buffer ≠ none ∧ value ≠ none) →
      (∀ r, hid_extract_value env hidif buffer value = some r → r.1 = HID_RET_SUCCESS) ∧
      (hidif.hid_data ≠ none →
        ∃ r, hid_extract_value env hidif buffer value = some r)) ∧
    ((∃ r, hid_extract_value env hidif buffer value = some r ∧
        r.1 = HID_RET_INVALID_PARAMETER) ↔ (buffer = none ∨ value = none)) := by
  cases buffer with
  | none => simp [hid_extract_value, ho]
  | some raw =>
    cases value with
    | none => simp [hid_extract_value, ho]
    | some v =>
      cases hd : hidif.hid_data with
      | none => simp [hid_extract_value, ho, hd]
      | some d => simp [hid_extract_value, ho, hd]

/-- Witness for C9: the opened example session with an absent raw buffer. -/
theorem C9_extract_value_invalid_parameter_witness :
    exampleEnv.hid_is_opened openedSession = true ∧
    hid_extract_value exampleEnv openedSession none (some 3)
      = some (HID_RET_INVALID_PARAMETER, openedSession, some 3) :=
  ⟨rfl, (C9_extract_value_invalid_parameter exampleEnv openedSession none (some 3) rfl).1
    (Or.inl rfl)⟩

/-- C4, counterexample: on the opened example session `hid_find_object` returns
`HID_RET_NOT_FOUND`, and the `hid_extract_value` that follows returns
`HID_RET_SUCCESS` and stores 42 in the destination; the same happens on the
session on which no `hid_find_object` was ever called. -/
theorem C4_extract_value_without_match_counterexample :
    (hid_find_object true exampleEnv openedSession scenarioPath 2 8 none).map (fun r => r.1)
      = some HID_RET_NOT_FOUND ∧
    ((hid_find_object true exampleEnv openedSession scenarioPath 2 8 none).bind fun r =>
        (hid_extract_value exampleEnv r.2.1 (some [42]) (some 0)).map fun r1 => (r1.1, r1.2.2))
      = some (HID_RET_SUCCESS, some 42) ∧
    (hid_extract_value exampleEnv openedSession (some [42]) (some 0)).map
        (fun r1 => (r1.1, r1.2.2))
      = some (HID_RET_SUCCESS, some 42) := by
  decide

/-- C4, amended: `hid_extract_value` does not look for a current match.  On an
opened session with allocated data, for every present raw buffer and
destination, it runs `GetValue`, returns `HID_RET_SUCCESS` and stores the
resulting `Value` in the destination; and a session handed back by a
`hid_find_object` that returned `HID_RET_NOT_FOUND` has its data allocated. -/
theorem C4_extract_value_without_match {P A : Type} (env : Extern P A)
    (hidif : HIDInterface P A) (raw : List Nat) (v : Int) (d : HIDData A)
    (ho : env.hid_is_opened hidif = true) (hd : hidif.hid_data = some d) :
    hid_extract_value env hidif (some raw) (some v)
      = some (HID_RET_SUCCESS, { hidif with hid_data := some (env.GetValue raw d) },
          some (env.GetValue raw d).Value) ∧
    (∀ (W : Bool) (hidif0 : HIDInterface P A) (path : Nat → Int) (depth size : Nat)
        (mb : Option (Nat → Nat)) (mb1 : Option Mem) (fr : Bool),
      env.hid_is_opened hidif0 = true →
      hid_find_object W env hidif0 path depth size mb
        = some (HID_RET_NOT_FOUND, hidif, mb1, fr) →
      ∃ p0 d0 d1, hidif0.hid_parser_ptr = some p0 ∧ hidif0.hid_data = some d0 ∧
        hid_prepare_parse_path d0 path depth = some d1 ∧
        (env.FindObject p0 d1 size).1 ≠ 1 ∧
        hidif.hid_data = some (env.FindObject p0 d1 size).2.2) := by
  refine ⟨by simp [hid_extract_value, ho, hd], ?_⟩
  intro W hidif0 path depth size mb mb1 fr ho0 hf
  simp only [hid_find_object, ho0, Bool.not_true, Bool.false_eq_true, if_false] at hf
  cases hp : hidif0.hid_parser_ptr with
  | none => simp [hp] at hf
  | some p0 =>
    cases hd0 : hidif0.hid_data with
    | none => simp [hp, hd0] at hf
    | some d0 =>
      simp only [hp, hd0] at hf
      cases hpp : hid_prepare_parse_path d0 path depth with
      | none => simp [hpp] at hf
      | some d1 =>
        simp only [hpp] at hf
        by_cases h1 : (env.FindObject p0 d1 size).1 = 1
        · simp [h1] at hf
        · simp only [h1, if_false] at hf
          split at hf
          · simp at hf
          · simp only [Option.some.injEq, Prod.mk.injEq, true_and] at hf
            exact ⟨p0, d0, d1, rfl, rfl, hpp, h1, by rw [← hf.1]⟩

/-- Witness for C4 (amended): the opened example session and the report `[42]`. -/
theorem C4_extract_value_without_match_witness :
    (exampleEnv.hid_is_opened openedSession = true ∧
      openedSession.hid_data = some exampleData) ∧
    hid_extract_value exampleEnv openedSession (some [42]) (some 0)
      = some (HID_RET_SUCCESS,
          { openedSession with hid_data := some (exampleEnv.GetValue [42] exampleData) },
          some (exampleEnv.GetValue [42] exampleData).Value) :=
  ⟨⟨rfl, rfl⟩,
    (C4_extract_value_without_match exampleEnv openedSession [42] 0 exampleData rfl rfl).1⟩

/-- C5, counterexample: the offset table of the opened example session is
empty, so it records nothing for report 1 of type 1; `hid_get_report_size`
still returns `HID_RET_SUCCESS`, with size 0, not `HID_RET_NOT_FOUND`. -/
theorem C5_get_report_size_not_found_counterexample :
    openedSession.hid_parser_ptr.map (fun p => offsetEntry p.OffsetTab 1 1) = some none ∧
    (hid_get_report_size exampleEnv openedSession 1 1 (some 99)).map
        (fun r => (r.1, r.2.2))
      = some (HID_RET_SUCCESS, some 0) := by
  decide

/-- C5, amended: `hid_get_report_size` has no `HID_RET_NOT_FOUND` result.  On an
opened session with a present size destination every result it returns is
`HID_RET_SUCCESS`, whether or not the key was declared; when `GetReportOffset`
returns a pointer for the key, the call returns `HID_RET_SUCCESS` and the
destination receives the value that pointer refers to. -/
theorem C5_get_report_size_not_found {P A : Type} (env : Extern P A)
    (hidif : HIDInterface P A) (reportID reportType s : Nat)
    (ho : env.hid_is_opened hidif = true) :
    (∀ r, hid_get_report_size env hidif reportID reportType (some s) = some r →
      r.1 = HID_RET_SUCCESS) ∧
    (∀ p v p1, hidif.hid_parser_ptr = some p →
      env.GetReportOffset p reportID reportType = (some v, p1) →
      hid_get_report_size env hidif reportID reportType (some s)
        = some (HID_RET_SUCCESS, { hidif with hid_parser_ptr := some p1 }, some v)) := by
  constructor
  · intro r hr
    simp only [hid_get_report_size, ho, Bool.not_true, Bool.false_eq_true, if_false] at hr
    cases hp : hidif.hid_parser_ptr with
    | none => simp [hp] at hr
    | some p =>
      simp only [hp] at hr
      rcases hg : env.GetReportOffset p reportID reportType with ⟨_ | v, p1⟩
      · simp [hg] at hr
      · simp only [hg, Option.some.injEq] at hr
        rw [← hr]
  · intro p v p1 hp hg
    simp [hid_get_report_size, ho, hp, hg]

/-- Witness for C5 (amended): the opened example session and the key (1, 1). -/
theorem C5_get_report_size_not_found_witness :
    exampleEnv.hid_is_opened openedSession = true ∧
    ∀ r, hid_get_report_size exampleEnv openedSession 1 1 (some 99) = some r →
      r.1 = HID_RET_SUCCESS :=
  ⟨rfl, (C5_get_report_size_not_found exampleEnv openedSession 1 1 99 rfl).1⟩

/-- C6: `hid_prepare_parser` discards the result of `HIDParse`.  On an opened
session with allocated parser and data it returns `HID_RET_SUCCESS` whatever
`HIDParse` returns, and hands back the parser and data as `HIDParse` left
them. -/
theorem C6_prepare_parser_ignores_parse_result {P A : Type} (env : Extern P A)
    (hidif : HIDInterface P A) (p : P) (d : HIDData A)
    (ho : env.hid_is_opened hidif = true) (hp : hidif.hid_parser_ptr = some p)
    (hd : hidif.hid_data = some d) :
    hid_prepare_parser_fn env hidif
      = some (HID_RET_SUCCESS,
          { hidif with
            hid_parser_ptr := some (env.HIDParse (env.ResetParser p) d).2.1
            hid_data := some (env.HIDParse (env.ResetParser p) d).2.2 }) := by
  simp [hid_prepare_parser_fn, hid_reset_parser_fn, ho, hp, hd]

/-- Witness for C6: the descriptor `[0x05]` of the opened example session ends
in a truncated item, `HIDParse` returns 0 on it, and `hid_prepare_parser`
returns `HID_RET_SUCCESS`. -/
theorem C6_prepare_parser_ignores_parse_result_witness :
    (exampleEnv.hid_is_opened openedSession = true ∧
      openedSession.hid_parser_ptr = some { ReportDesc := [0x05], OffsetTab := [] } ∧
      openedSession.hid_data = some exampleData) ∧
    (exampleEnv.HIDParse (exampleEnv.ResetParser { ReportDesc := [0x05], OffsetTab := [] })
        exampleData).1 = 0 ∧
    hid_prepare_parser_fn exampleEnv openedSession
      = some (HID_RET_SUCCESS,
          { openedSession with
            hid_parser_ptr := some (exampleEnv.HIDParse
              (exampleEnv.ResetParser { ReportDesc := [0x05], OffsetTab := [] })
              exampleData).2.1
            hid_data := some (exampleEnv.HIDParse
              (exampleEnv.ResetParser { ReportDesc := [0x05], OffsetTab := [] })
              exampleData).2.2 }) :=
  ⟨⟨rfl, rfl, rfl⟩, rfl,
    C6_prepare_parser_ignores_parse_result exampleEnv openedSession
      { ReportDesc := [0x05], OffsetTab := [] } exampleData rfl rfl rfl⟩

/-! ## Decoding of path elements -/

theorem hexVal_hexDigit (d : Nat) (h : d < 16) : hexVal (hexDigit d) = some d := by
  simp only [hexVal, hexDigit]
  by_cases h10 : d < 10
  · rw [if_pos h10, if_pos (by omega)]
    congr 1; omega
  · rw [if_neg h10, if_neg (by omega), if_pos (by omega)]
    congr 1; omega

theorem hexDigit_ne (d : Nat) (h : d < 16) : hexDigit d ≠ 46 ∧ hexDigit d ≠ 0 := by
  simp only [hexDigit]
  split <;> omega

theorem readToken_token (v : Nat) (h : v < 2 ^ 32) :
    readToken ([48, 120] ++ hex8 v) = some v := by
  simp only [hex8, List.cons_append, List.nil_append, readToken, List.length_cons,
    List.length_nil, hexNumber]
  simp only [hexVal_hexDigit _ (Nat.mod_lt _ (by decide : 0 < 16)), Option.some_bind]
  norm_num
  omega

theorem token_chars (v : Nat) : ∀ c ∈ [48, 120] ++ hex8 v, c ≠ 46 ∧ c ≠ 0 := by
  intro c hc
  simp only [hex8, List.cons_append, List.nil_append, List.mem_cons, List.mem_singleton,
    List.not_mem_nil, or_false] at hc
  have hd := fun d => hexDigit_ne (d % 16) (Nat.mod_lt d (by decide : 0 < 16))
  rcases hc with h | h | h | h | h | h | h | h | h | h
  · omega
  · omega
  all_goals (rw [h]; exact hd _)

theorem splitDots_append (tok : List Nat) : ∀ (cur rest : List Nat),
    (∀ c ∈ tok, c ≠ 46) → splitDots cur (tok ++ rest) = splitDots (cur ++ tok) rest := by
  induction tok with
  | nil => intro cur rest _; simp
  | cons c tok ih =>
    intro cur rest h
    have hc : c ≠ 46 := h c (List.mem_cons_self _ _)
    show splitDots cur (c :: (tok ++ rest)) = _
    rw [splitDots, if_neg hc, ih _ _ (fun x hx => h x (List.mem_cons_of_mem _ hx))]
    simp

theorem splitDots_token (tok rest : List Nat) (h : ∀ c ∈ tok, c ≠ 46) :
    splitDots [] (tok ++ 46 :: rest) = tok :: splitDots [] rest := by
  rw [splitDots_append tok [] _ h, List.nil_append, splitDots, if_pos rfl]

theorem splitDots_last (tok : List Nat) (h : ∀ c ∈ tok, c ≠ 46) :
    splitDots [] tok = [tok] := by
  have := splitDots_append tok [] [] h
  rw [List.append_nil, List.nil_append] at this
  rw [this, splitDots]

theorem pathText_one (path : Nat → Int) (i : Nat) :
    pathText path 1 i = [48, 120] ++ hex8 (path i % 2 ^ 32).toNat := rfl

theorem pathText_succ (path : Nat → Int) (k i : Nat) :
    pathText path (k + 1 + 1) i
      = ([48, 120] ++ hex8 (path i % 2 ^ 32).toNat) ++ 46 :: pathText path (k + 1) (i + 1) := by
  simp [pathText]

theorem readTokens_pathText (path : Nat → Int) : ∀ (k i : Nat),
    readTokens (splitDots [] (pathText path (k + 1) i)) = some (pathValues path (k + 1) i) := by
  intro k
  induction k with
  | zero =>
    intro i
    rw [pathText_one, splitDots_last _ (fun c hc => (token_chars _ c hc).1)]
    rw [readTokens, readToken_token _ (by omega)]
    rfl
  | succ k ih =>
    intro i
    rw [pathText_succ, splitDots_token _ _ (fun c hc => (token_chars _ c hc).1)]
    rw [readTokens, readToken_token _ (by omega), Option.some_bind, ih (i + 1)]
    rfl

theorem token_length (v : Nat) : ([48, 120] ++ hex8 v).length = 10 := by
  simp [hex8]

theorem fmt_token_eq (p : Int) :
    fmt_token p = ([48, 120] ++ hex8 (p % 2 ^ 32).toNat) ++ [46] := rfl

theorem pathText_length (path : Nat → Int) : ∀ (k i : Nat),
    (pathText path (k + 1) i).length = 11 * k + 10 := by
  intro k
  induction k with
  | zero => intro i; rw [pathText_one, token_length]
  | succ k ih =>
    intro i
    rw [pathText_succ, List.length_append, token_length, List.length_cons, ih (i + 1)]
    omega

theorem pathText_chars (path : Nat → Int) : ∀ (k i : Nat),
    ∀ c ∈ pathText path (k + 1) i, c ≠ 0 := by
  intro k
  induction k with
  | zero =>
    intro i c hc
    rw [pathText_one] at hc
    exact (token_chars _ c hc).2
  | succ k ih =>
    intro i c hc
    rw [pathText_succ, List.mem_append, List.mem_cons] at hc
    rcases hc with hc | hc | hc
    · exact (token_chars _ c hc).2
    · omega
    · exact ih (i + 1) c hc

theorem pathText_getD (path : Nat → Int) : ∀ (k i0 i t : Nat),
    i < k + 1 → t < 11 → 11 * i + t < 11 * k + 10 →
    (pathText path (k + 1) i0).getD (11 * i + t) 0 = (fmt_token (path (i0 + i))).getD t 0 := by
  intro k
  induction k with
  | zero =>
    intro i0 i t hi ht hlt
    have hi0 : i = 0 := by omega
    subst hi0
    simp only [Nat.mul_zero, Nat.zero_add, Nat.add_zero]
    rw [pathText_one, fmt_token_eq]
    exact (List.getD_append _ _ _ _ (by rw [token_length]; omega)).symm
  | succ k ih =>
    intro i0 i t hi ht hlt
    have e : pathText path (k + 1 + 1) i0
        = fmt_token (path i0) ++ pathText path (k + 1) (i0 + 1) := by
      rw [pathText_succ, fmt_token_eq]; simp
    have hlen : (fmt_token (path i0)).length = 11 := by
      rw [fmt_token_eq, List.length_append, token_length]; rfl
    rw [e]
    cases i with
    | zero =>
      simp only [Nat.mul_zero, Nat.zero_add, Nat.add_zero]
      exact List.getD_append _ _ _ _ (by rw [hlen]; exact ht)
    | succ i =>
      rw [List.getD_append_right _ _ _ _ (by rw [hlen]; omega), hlen]
      have e2 : 11 * (i + 1) + t - 11 = 11 * i + t := by omega
      rw [e2, ih (i0 + 1) i t (by omega) ht (by omega)]
      congr 3; omega

theorem readCStr_of_text (cell : Nat → Nat) : ∀ (s : List Nat) (k fuel : Nat),
    (∀ c ∈ s, c ≠ 0) → (∀ j, j < s.length → cell (k + j) = s.getD j 0) →
    cell (k + s.length) = 0 → s.length < fuel → readCStr cell fuel k = some s := by
  intro s
  induction s with
  | nil =>
    intro k fuel _ _ h0 hf
    cases fuel with
    | zero => simp at hf
    | succ f => simp only [readCStr]; rw [if_pos (by simpa using h0)]
  | cons c s ih =>
    intro k fuel hc hcell h0 hf
    cases fuel with
    | zero => simp at hf
    | succ f =>
      have hk : cell k = c := by simpa using hcell 0 (by simp)
      have hc0 : c ≠ 0 := hc c (List.mem_cons_self _ _)
      simp only [readCStr, hk, if_neg hc0]
      rw [ih (k + 1) f (fun x hx => hc x (List.mem_cons_of_mem _ hx)) ?_ ?_ ?_]
      · rfl
      · intro j hj
        have := hcell (j + 1) (by simpa using hj)
        simpa [Nat.add_assoc, Nat.add_comm 1 j] using this
      · simpa [Nat.add_assoc, Nat.add_comm 1] using h0
      · simpa using hf

/-- Round trip of the formatter where `snprintf` is `_snprintf` (`WIN32`): for
`depth >= 1`, a sufficient 32-bit `length` and a block of at least `length`
bytes the call returns `HID_RET_SUCCESS`, the buffer read as a C string is the
dot-separated text of the `depth` tokens, and reading that text back gives
`path[0] .. path[depth-1]` as unsigned 32-bit values. -/
theorem format_path_round_trip (m : Mem) (length : Nat) (path : Nat → Int) (depth : Nat)
    (hd : 1 ≤ depth) (h : 11 * depth ≤ length) (hl : length < 2 ^ 32) (hs : length ≤ m.size) :
    ∃ m1 : Mem,
      hid_format_path true (some m) length path depth = some (HID_RET_SUCCESS, some m1) ∧
      readCStr m1.cell (11 * depth) 0 = some (pathText path depth 0) ∧
      readPath (pathText path depth 0) = some (pathValues path depth 0) := by
  obtain ⟨k, rfl⟩ : ∃ k, depth = k + 1 := ⟨depth - 1, by omega⟩
  refine ⟨(writeTokens true path (k + 1) 0 m).put (11 * (k + 1) - 1) 0,
    format_path_ok true m length path (k + 1) hd h hl hs, ?_, ?_⟩
  · apply readCStr_of_text _ _ _ _ (pathText_chars path k 0)
    · intro j hj
      rw [pathText_length] at hj
      have hj1 : j = 11 * (j / 11) + j % 11 := by omega
      simp only [Mem.put, Nat.zero_add]
      rw [if_neg (by omega)]
      rw [hj1, writeTokens_cell_inside true path (k + 1) 0 m (j / 11) (j % 11) (by omega)
        (by omega) (by omega) (by omega)]
      rw [pathText_getD path k 0 (j / 11) (j % 11) (by omega) (by omega) (by omega)]
      simp [stored_token]
    · rw [pathText_length]
      simp only [Mem.put, Nat.zero_add]
      rw [if_pos (by omega)]
    · rw [pathText_length]; omega
  · have hne : pathText path (k + 1) 0 ≠ [] := by
      intro he
      have := pathText_length path k 0
      rw [he] at this
      simp at this
    rw [readPath, if_neg hne, readTokens_pathText]

/-- Where `snprintf` is the C99 function (no `WIN32`) the dot of every token is
replaced by the terminating NUL: formatting the scenario path of depth 2 into
22 bytes returns `HID_RET_SUCCESS` and leaves the text of the first token only. -/
theorem format_path_c99_first_token_only :
    (hid_format_path false (some staleBuffer) 22 scenarioPath 2).map
        (fun r => (r.1, r.2.map fun m1 => readCStr m1.cell 22 0))
      = some (HID_RET_SUCCESS, some (some [48, 120, 48, 48, 48, 49, 48, 48, 48, 50])) := by
  decide

end LibHid
